import Mathlib

/-!
# Verification of the SRM attendance backend core

Shallow embedding of the algorithmic core of the `srm-backend` repository:

* `calculateDailyStatus` (src/utils/attendanceCalculator.js) — the daily
  attendance-status resolution engine;
* the report path's effective-session envelope (src/routes/attendance.js,
  `router.get('/report')`);
* the ping-driven presence state machine (src/routes/location.js,
  `router.post('/ping')`) and the location validation endpoint
  (`router.post('/validate')`);
* the check-in tracking-state resolution (src/routes/attendance.js,
  `router.post('/check-in')`);
* the status-read staleness correction and the duration aggregation
  (src/routes/attendance.js, `router.get('/status/:employeeId')`).

Modelling conventions:

* Timestamps are absolute minutes (ℕ) in local time; minutes-from-midnight is
  `t % 1440`, matching JS `getHours()*60 + getMinutes()` at whole-minute
  granularity.  Millisecond differences `(b - a)/(1000*60)` become integer
  minute differences.
* Calendar dates are day indices (ℕ) with day `0` a Sunday, so JS
  `getDay() === 0` becomes `date % 7 = 0`, and date-string equality becomes
  equality of day indices.
* JS `x || d` on a numeric setting treats `0` as falsy; `jsOrNat` models this.
* `HH:mm` setting strings are represented pre-split as an hour/minute pair;
  a missing (falsy) setting is `none`.
* Geographic floating-point distance computations are abstracted: the per-fence
  outcome of `isWithinGeofence` (a membership Bool and a rounded integer
  distance) is an input; the fence-scanning loop itself is embedded exactly.
* Presentation-only output (the `times` field formatted with
  `toLocaleTimeString`) is omitted from the result record.
-/

namespace SRM

/-- JS `v || d` for a numeric field: `undefined`/`null`/`0` fall back to `d`. -/
def jsOrNat (v : Option Nat) (d : Nat) : Nat :=
  match v with
  | none => d
  | some x => if x = 0 then d else x

/-- Minutes from midnight of an absolute minute timestamp
(JS `d.getHours() * 60 + d.getMinutes()`). -/
def minutesOfDay (t : Nat) : Nat := t % 1440

/-- Minutes from midnight denoted by a pre-split `HH:mm` pair
(JS `const [h, m] = s.split(':').map(Number); h * 60 + m`). -/
def hmToMinutes (p : Nat × Nat) : Nat := p.1 * 60 + p.2

/-! ## Daily status engine (src/utils/attendanceCalculator.js) -/

/-- The attendance record consumed by `calculateDailyStatus`:
`checkInTime` and optional `checkOutTime` as absolute minute timestamps. -/
structure AttendanceRec where
  checkInTime : Nat
  checkOutTime : Option Nat
  deriving Repr, DecidableEq

/-- An approved leave request; only `data.leaveType` is read by the engine. -/
structure LeaveReq where
  leaveType : Option String
  deriving Repr, DecidableEq

/-- The attendance settings fields read by `calculateDailyStatus`.
`none` stands for a missing/falsy field, triggering the in-code default. -/
structure AttSettings where
  workStartTime : Option (Nat × Nat)
  workEndTime : Option (Nat × Nat)
  halfDayThresholdMinutes : Option Nat
  deriving Repr, DecidableEq

/-- The result of `calculateDailyStatus` (the presentation-only `times`
field is omitted). -/
structure DailyStatusResult where
  status : List String
  remarks : String
  color : String
  deriving Repr, DecidableEq

/-- Check-in block (part A) of `calculateDailyStatus`: tags pushed from the
check-in time.  `if (checkInMinutes > lateCutoff) { … } else if
(checkInMinutes < startMinutes - 30) { … }`. -/
def checkInStatusTags (checkInMinutes startMinutes : Nat)
    (halfDayThresholdMinutes : Option Nat) (permission : Bool) : List String :=
  if checkInMinutes > startMinutes + 15 then
    (if permission then ["Permission in"] else ["Late in"]) ++
      (if checkInMinutes > jsOrNat halfDayThresholdMinutes 720 then
        ["Half day in"] else [])
  else if (checkInMinutes : Int) < (startMinutes : Int) - 30 then
    ["Early in"]
  else []

/-- Remarks pushed by the check-in block: "Late entry permitted" when a
permission excuses a late check-in. -/
def checkInRemarks (checkInMinutes startMinutes : Nat) (permission : Bool) :
    List String :=
  if checkInMinutes > startMinutes + 15 then
    (if permission then ["Late entry permitted"] else [])
  else []

/-- Check-out block (part B) of `calculateDailyStatus`: tags pushed from the
check-out time (or its absence). -/
def checkOutStatusTags (att : AttendanceRec) (endMinutes : Nat)
    (date today nowMinutes : Nat) : List String :=
  match att.checkOutTime with
  | none =>
    if date ≠ today then ["Shift out punch not done"]
    else if nowMinutes > endMinutes + 60 then ["Shift out punch not done"]
    else ["Working"]
  | some co =>
    if minutesOfDay co < endMinutes then
      ["Early out"] ++
        (if (co : Int) - (att.checkInTime : Int) < 240 then
          ["Half day out"] else [])
    else if minutesOfDay co > endMinutes + 30 then ["Late out"]
    else []

/-- Default fallback: push "Present" when no tag was pushed, or the single
tag is "Early in". -/
def withDefaultPresent (statuses : List String) : List String :=
  if statuses = [] ∨ statuses = ["Early in"] then statuses ++ ["Present"]
  else statuses

/-- Color derivation from the final tag list: sequential assignments, a later
matching rule overwriting an earlier one. -/
def colorOf (statuses : List String) : String :=
  let c1 := "green"
  let c2 :=
    if statuses.contains "Absent" || statuses.contains "Shift out punch not done"
    then "red" else c1
  let c3 :=
    if statuses.contains "Late in" || statuses.contains "Early out" ||
       statuses.contains "Half day in" || statuses.contains "Half day out"
    then "orange" else c2
  if statuses.contains "Leave" then "blue" else c3

/-- The remark components contributed by an approved leave request
(`leave.data.leaveType`, when present). -/
def leaveRemarks (leave : Option LeaveReq) : List String :=
  match leave with
  | some lv => match lv.leaveType with
    | some t => [t]
    | none => []
  | none => []

/-- Tags pushed before the check-in/check-out blocks run: "Week off worked"
for a Sunday with attendance, and "Leave" / "Present (On Leave)" for an
approved leave with attendance. -/
def baseTags (date : Nat) (leave : Option LeaveReq) : List String :=
  (if date % 7 = 0 then ["Week off worked"] else []) ++
    (match leave with
      | some _ => ["Leave", "Present (On Leave)"]
      | none => [])

/-- `remarks.join(', ') || (statuses.includes('Present') ? 'On Time' : '')`. -/
def joinRemarks (remarks statuses : List String) : String :=
  let joined := String.intercalate ", " remarks
  if joined = "" then (if statuses.contains "Present" then "On Time" else "")
  else joined

/-- `calculateDailyStatus` from src/utils/attendanceCalculator.js.

The JS control flow returns early in three terminal cases, all of which have
`attendance` absent (Sunday week-off, leave with no attendance, absent); once
past them an attendance record is guaranteed.  The embedding matches on
`attendance` first, reproducing exactly those terminal results in the `none`
branch and the main path in the `some` branch.

`permission` is the presence of an approved permission request for the date
(only its presence is read).  `date`/`today` are day indices; `nowMinutes` is
the current minutes-from-midnight (the two wall-clock reads). -/
def calculateDailyStatus (attendance : Option AttendanceRec)
    (leave : Option LeaveReq) (permission : Bool) (settings : AttSettings)
    (date today nowMinutes : Nat) : DailyStatusResult :=
  match attendance with
  | none =>
    if date % 7 = 0 then
      { status := ["Week off"], remarks := "Sunday Holiday", color := "gray" }
    else
      match leave with
      | some lv =>
        { status := ["Leave"],
          remarks := String.intercalate ", " (leaveRemarks (some lv)),
          color := "orange" }
      | none =>
        { status := ["Absent"], remarks := "No Check-in", color := "red" }
  | some att =>
    let startMinutes := hmToMinutes (settings.workStartTime.getD (9, 0))
    let endMinutes := hmToMinutes (settings.workEndTime.getD (18, 0))
    let checkInMinutes := minutesOfDay att.checkInTime
    let statuses := withDefaultPresent
      (baseTags date leave ++
        checkInStatusTags checkInMinutes startMinutes
          settings.halfDayThresholdMinutes permission ++
        checkOutStatusTags att endMinutes date today nowMinutes)
    let remarks :=
      leaveRemarks leave ++ checkInRemarks checkInMinutes startMinutes permission
    { status := statuses,
      remarks := joinRemarks remarks statuses,
      color := colorOf statuses }

/-! ## Report path: effective attendance envelope
(src/routes/attendance.js, `router.get('/report')`, both range and single-date
mode build the same envelope) -/

/-- A raw attendance record of the report path (only the fields the envelope
reads). -/
structure AttRecord where
  checkInTime : Nat
  checkOutTime : Option Nat
  deriving Repr, DecidableEq

/-- Stable insertion of a record into a list sorted by ascending
`checkInTime`: an element is inserted after all existing elements with a
smaller-or-equal key, as in a stable JS `sort((a, b) => a.checkInTime -
b.checkInTime)`. -/
def insertByCheckIn (r : AttRecord) : List AttRecord → List AttRecord
  | [] => [r]
  | x :: xs =>
    if r.checkInTime < x.checkInTime then r :: x :: xs
    else x :: insertByCheckIn r xs

/-- Stable sort by ascending `checkInTime`
(`empAttendance.sort((a, b) => new Date(a.checkInTime) - new Date(b.checkInTime))`). -/
def sortByCheckIn : List AttRecord → List AttRecord
  | [] => []
  | r :: rs => insertByCheckIn r (sortByCheckIn rs)

/-- The effective attendance session built by the report path: for a nonempty
record list, sort ascending by check-in, take the first record's
`checkInTime` and the last record's `checkOutTime || null`. -/
def effectiveAttendance (recs : List AttRecord) : Option AttendanceRec :=
  match sortByCheckIn recs with
  | [] => none
  | x :: xs =>
    some { checkInTime := x.checkInTime,
           checkOutTime := (xs.getLastD x).checkOutTime }

/-! ## Tracking state and session store

`Employee` carries the live tracking fields stored inline on the employee
record; `Session` is an attendance record in the session store; `PingRec` is
a persisted location ping.  Coordinates are opaque integers (no arithmetic is
performed on them in the embedded paths).  An `Option Int` distance is a
rounded integer distance, `none` standing for JS `Infinity`. -/

/-- Live tracking fields of an employee record. -/
structure Employee where
  isTracking : Bool
  outsideGeofenceCount : Nat
  isInsideGeofence : Bool
  lastPingTime : Option Nat
  lastLatitude : Option Int
  lastLongitude : Option Int
  autoCheckoutReason : Option String
  deriving Repr, DecidableEq

/-- An attendance session record (`date` a day index, times in absolute
minutes). -/
structure Session where
  attendanceId : Nat
  date : Nat
  checkInTime : Nat
  checkOutTime : Option Nat
  deriving Repr, DecidableEq

/-- A persisted location ping (src/models/LocationPing.js `savePing` fields
used by the core). -/
structure PingRec where
  latitude : Int
  longitude : Int
  isInsideGeofence : Bool
  distance : Option Int
  closestBranch : Option Nat
  deriving Repr, DecidableEq

/-- The per-employee state the embedded routes read and write: the employee
record, the employee's attendance sessions, and the ping log. -/
structure TrackState where
  emp : Employee
  sessions : List Session
  pings : List PingRec
  deriving Repr, DecidableEq

/-- `Attendance.getOpenSession` (src/models/Attendance.js): among the
employee's sessions with no `checkOutTime`, the one with the latest
`checkInTime` (the scan results are sorted descending by check-in and the
head taken; on equal keys the first-listed record wins, as for a stable
descending sort). -/
def openStep (acc : Option Session) (s : Session) : Option Session :=
  if s.checkOutTime = none then
    match acc with
    | none => some s
    | some b => if s.checkInTime > b.checkInTime then some s else acc
  else acc

/-- See the doc comment above: the latest-check-in open session. -/
def getOpenSession (sessions : List Session) : Option Session :=
  sessions.foldl openStep none

/-- `Attendance.checkOut(attendanceId)` (src/models/Attendance.js): set
`checkOutTime` on the record with the given id (the first scan match). -/
def checkOutSession (sessions : List Session) (attendanceId now : Nat) :
    List Session :=
  match sessions with
  | [] => []
  | s :: rest =>
    if s.attendanceId = attendanceId then
      { s with checkOutTime := some now } :: rest
    else s :: checkOutSession rest attendanceId now

/-! ## Ping handler (src/routes/location.js, `router.post('/ping')`) -/

/-- Auto-checkout threshold: 5 consecutive pings outside the geofence. -/
def OUTSIDE_GEOFENCE_CHECKOUT_THRESHOLD : Nat := 5

/-- The outcome of `isWithinGeofence` for one active branch fence, as consumed
by the fence-scanning loop: the membership flag and the rounded integer
distance, plus the branch id. -/
structure FenceEval where
  branchId : Nat
  isWithin : Bool
  distance : Int
  deriving Repr, DecidableEq

/-- `(d : Option Int)` as JS `minDistance` (`none` = `Infinity`):
`x < minDistance`. -/
def ltMinDistance (x : Int) (d : Option Int) : Bool :=
  match d with
  | none => true
  | some m => x < m

/-- One iteration of the fence-scanning loop: update the running minimum
distance and closest branch, then the inside flag. -/
def scanStep (acc : Bool × Option Int × Option Nat) (f : FenceEval) :
    Bool × Option Int × Option Nat :=
  let acc' :=
    if ltMinDistance f.distance acc.2.1 then
      (acc.1, some f.distance, some f.branchId)
    else acc
  if f.isWithin then (true, acc'.2.1, acc'.2.2) else acc'

/-- The fence-scanning loop of the ping handler: running over all active
branches, keep the minimum rounded distance and its branch, and whether any
fence contains the point.  Initial state: `minDistance = Infinity`,
`closestBranch = null`, `isInsideAnyBranch = false`. -/
def scanFences (fences : List FenceEval) :
    Bool × Option Int × Option Nat :=
  fences.foldl scanStep (false, none, none)

/-- The response fields of the ping handler that the core computes. -/
structure PingOutcome where
  /-- `tracking` in the response (false when not tracking or auto-checked out). -/
  tracking : Bool
  /-- Early-return branch: the employee was not tracking; the ping is a no-op. -/
  notTracking : Bool
  autoCheckedOut : Bool
  isInsideGeofence : Bool
  distance : Option Int
  closestBranch : Option Nat
  /-- `outsideGeofenceCount` in the response (`0` when inside). -/
  outsideGeofenceCount : Nat
  deriving Repr, DecidableEq

/-- `router.post('/ping')` (src/routes/location.js): the presence state
machine step.  `fences` is the list of per-branch `isWithinGeofence`
outcomes for the ping's coordinates; `now` the current absolute minute. -/
def handlePing (st : TrackState) (fences : List FenceEval)
    (lat lng : Int) (now : Nat) : PingOutcome × TrackState :=
  if st.emp.isTracking = false then
    ({ tracking := false, notTracking := true, autoCheckedOut := false,
       isInsideGeofence := false, distance := none, closestBranch := none,
       outsideGeofenceCount := 0 }, st)
  else
    let scan := scanFences fences
    let isInsideAnyBranch := scan.1
    let minDistance := scan.2.1
    let closestBranch := scan.2.2
    let ping : PingRec :=
      { latitude := lat, longitude := lng,
        isInsideGeofence := isInsideAnyBranch, distance := minDistance,
        closestBranch := closestBranch }
    if isInsideAnyBranch = false then
      let newCount := st.emp.outsideGeofenceCount + 1
      if OUTSIDE_GEOFENCE_CHECKOUT_THRESHOLD ≤ newCount then
        -- auto-checkout: close any open session, stop tracking
        let sessions' :=
          match getOpenSession st.sessions with
          | some s => checkOutSession st.sessions s.attendanceId now
          | none => st.sessions
        let emp' :=
          { st.emp with
              isTracking := false, outsideGeofenceCount := 0,
              autoCheckoutReason := some "outside_geofence",
              lastLatitude := some lat, lastLongitude := some lng,
              lastPingTime := some now }
        ({ tracking := false, notTracking := false, autoCheckedOut := true,
           isInsideGeofence := false, distance := minDistance,
           closestBranch := closestBranch, outsideGeofenceCount := newCount },
         { emp := emp', sessions := sessions', pings := st.pings ++ [ping] })
      else
        let emp' :=
          { st.emp with
              lastLatitude := some lat, lastLongitude := some lng,
              lastPingTime := some now, isInsideGeofence := false,
              outsideGeofenceCount := newCount }
        ({ tracking := true, notTracking := false, autoCheckedOut := false,
           isInsideGeofence := false, distance := minDistance,
           closestBranch := closestBranch, outsideGeofenceCount := newCount },
         { emp := emp', sessions := st.sessions, pings := st.pings ++ [ping] })
    else
      let emp' :=
        { st.emp with
            lastLatitude := some lat, lastLongitude := some lng,
            lastPingTime := some now, isInsideGeofence := true,
            outsideGeofenceCount := 0 }
      ({ tracking := true, notTracking := false, autoCheckedOut := false,
         isInsideGeofence := true, distance := minDistance,
         closestBranch := closestBranch, outsideGeofenceCount := 0 },
       { emp := emp', sessions := st.sessions, pings := st.pings ++ [ping] })

/-! ## Location validation (src/routes/location.js, `router.post('/validate')`) -/

/-- The fields of the `/validate` response the core computes. -/
structure ValidateOutcome where
  withinRange : Bool
  isConfigured : Bool
  closestBranch : Option Nat
  deriving Repr, DecidableEq

/-- `router.post('/validate')`: if any active branch exists, scan them as the
ping handler does and allow iff within some branch; otherwise fall back to the
legacy geofence settings (`legacy = none` when not configured), and with no
configured geofence allow all locations. -/
def validateLocation (branches : List FenceEval) (legacy : Option FenceEval) :
    ValidateOutcome :=
  if branches.length > 0 then
    let scan := scanFences branches
    { withinRange := scan.1, isConfigured := true, closestBranch := scan.2.2 }
  else
    match legacy with
    | none =>
      { withinRange := true, isConfigured := false, closestBranch := none }
    | some g =>
      { withinRange := g.isWithin, isConfigured := true, closestBranch := none }

/-! ## Status read path
(src/routes/attendance.js, `router.get('/status/:employeeId')`) -/

/-- The tracking fields of the status response. -/
structure StatusView where
  isTracking : Bool
  autoCheckedOut : Bool
  deriving Repr, DecidableEq

/-- The inactivity staleness correction of the status-read path: if the
employee is tracking, has a `lastPingTime`, and more than 10 minutes have
elapsed since it, force `isTracking` to false (keeping the original
`lastPingTime` for the resume logic); nothing else in the state is written. -/
def handleStatusRead (st : TrackState) (now : Nat) : StatusView × TrackState :=
  match st.emp.lastPingTime with
  | some t =>
    if st.emp.isTracking = true ∧ (now : Int) - (t : Int) > 10 then
      ({ isTracking := false, autoCheckedOut := true },
       { st with emp := { st.emp with isTracking := false } })
    else ({ isTracking := st.emp.isTracking, autoCheckedOut := false }, st)
  | none => ({ isTracking := st.emp.isTracking, autoCheckedOut := false }, st)

/-! ## Check-in tracking-state resolution
(src/routes/attendance.js, `router.post('/check-in')`, the `employee.isTracking`
block).  The face-match, geofence and branch guards around it return
independently and are not part of the tracking-state resolution. -/

/-- Structured outcome of the check-in tracking resolution. -/
inductive CheckInOutcome where
  /-- A genuinely open session dated today exists: HTTP 400, no new session. -/
  | duplicateRejected : CheckInOutcome
  /-- Check-in proceeds; `staleClosed` records whether a stale open session
  from a prior day was auto-closed first. -/
  | success (staleClosed : Bool) : CheckInOutcome
  deriving Repr, DecidableEq

/-- Create the new attendance record and start tracking
(`Attendance.createAttendance` + `Employee.updateEmployee`). -/
def startSession (st : TrackState) (today now newId : Nat) (lat lng : Int) :
    TrackState :=
  { emp :=
      { st.emp with
          isTracking := true, lastLatitude := some lat,
          lastLongitude := some lng, lastPingTime := some now,
          isInsideGeofence := true, outsideGeofenceCount := 0 },
    sessions := st.sessions ++
      [{ attendanceId := newId, date := today, checkInTime := now,
         checkOutTime := none }],
    pings := st.pings }

/-- The check-in handler's tracking-state resolution: if `isTracking`, look
for a genuinely open session; one dated today rejects the check-in, one from
a prior day is auto-closed and the check-in proceeds, and none at all (ghost
tracking) lets the check-in proceed. -/
def handleCheckIn (st : TrackState) (today now newId : Nat) (lat lng : Int) :
    CheckInOutcome × TrackState :=
  if st.emp.isTracking = true then
    match getOpenSession st.sessions with
    | some s =>
      if s.date = today then (CheckInOutcome.duplicateRejected, st)
      else
        (CheckInOutcome.success true,
         startSession
           { st with sessions := checkOutSession st.sessions s.attendanceId now }
           today now newId lat lng)
    | none => (CheckInOutcome.success false, startSession st today now newId lat lng)
  else (CheckInOutcome.success false, startSession st today now newId lat lng)

/-! ## Duration aggregation
(src/routes/attendance.js, `router.get('/status/:employeeId')`, duration
calculation block) -/

/-- A request-store record (only the fields the duration path reads). -/
structure RequestRec where
  employeeId : Nat
  type : String
  status : String
  date : Option Nat
  duration : Option Nat
  deriving Repr, DecidableEq

/-- `Request.getApprovedPermissions` (src/models, request store): scan for the
employee's APPROVED PERMISSION requests, then filter by `data.date === date`. -/
def getApprovedPermissions (reqs : List RequestRec) (employeeId date : Nat) :
    List RequestRec :=
  (reqs.filter fun r =>
    r.employeeId == employeeId && r.type == "PERMISSION" &&
      r.status == "APPROVED").filter
    fun r => r.date == some date

/-- Attendance duration: sum of `(checkOutTime ?? now) - checkInTime` over
all of today's sessions (records always carry a check-in time, so the JS
truthiness guard on `checkInTime` always passes). -/
def attendanceDurationMinutes (sessions : List Session) (now : Nat) : Int :=
  sessions.foldl
    (fun acc s =>
      acc + (((s.checkOutTime.getD now : Nat) : Int) - (s.checkInTime : Int)))
    0

/-- Permission duration: sum of the approved permissions' `data.duration`
minutes (`parseFloat(…) || 0`, a missing duration contributing 0). -/
def permissionDurationMinutes (perms : List RequestRec) : Nat :=
  perms.foldl (fun acc p => acc + p.duration.getD 0) 0

/-- The duration triple of the status response. -/
structure Durations where
  attendanceDurationMinutes : Int
  permissionDurationMinutes : Nat
  totalWorkDurationMinutes : Int
  deriving Repr, DecidableEq

/-- The duration-calculation block of the status-read path. -/
def computeDurations (sessions : List Session) (reqs : List RequestRec)
    (employeeId date now : Nat) : Durations :=
  let a := attendanceDurationMinutes sessions now
  let p := permissionDurationMinutes (getApprovedPermissions reqs employeeId date)
  { attendanceDurationMinutes := a, permissionDurationMinutes := p,
    totalWorkDurationMinutes := a + p }

/-- Repeated application of the ping handler with a fixed fence evaluation
and coordinates: the state after `n` consecutive pings. -/
def iteratePing (fences : List FenceEval) (lat lng : Int) (now : Nat) :
    Nat → TrackState → TrackState
  | 0, st => st
  | n + 1, st =>
    (handlePing (iteratePing fences lat lng now n st) fences lat lng now).2

/-- A concrete tracking employee used by witnesses. -/
def empTracking : Employee :=
  { isTracking := true, outsideGeofenceCount := 0, isInsideGeofence := true,
    lastPingTime := some 100, lastLatitude := none, lastLongitude := none,
    autoCheckoutReason := none }

/-! ## Helper lemmas -/

/-- Folding addition of a mapped value equals the sum of the mapped list. -/
theorem foldl_add_map_sum {α M : Type} [AddCommMonoid M] (f : α → M)
    (l : List α) (a : M) :
    l.foldl (fun acc x => acc + f x) a = a + (l.map f).sum := by
  induction l generalizing a with
  | nil => simp
  | cons x xs ih => simp [ih, add_assoc]

/-- `withDefaultPresent` neither adds nor removes a tag other than
"Present". -/
theorem mem_withDefaultPresent {x : String} (hx : x ≠ "Present")
    (l : List String) : x ∈ withDefaultPresent l ↔ x ∈ l := by
  unfold withDefaultPresent
  split
  · simp [hx]
  · rfl

/-- Any tag in `baseTags` is one of its three literals. -/
theorem mem_baseTags {x : String} {date : Nat} {leave : Option LeaveReq}
    (h : x ∈ baseTags date leave) :
    x = "Week off worked" ∨ x = "Leave" ∨ x = "Present (On Leave)" := by
  unfold baseTags at h
  rcases List.mem_append.mp h with h' | h'
  · split at h' <;> simp_all
  · match leave with
    | some _ => simp_all
    | none => simp_all

/-- Any tag pushed by the check-in block is one of its four literals. -/
theorem mem_checkInStatusTags {x : String} {cim sm : Nat}
    {hd : Option Nat} {p : Bool} (h : x ∈ checkInStatusTags cim sm hd p) :
    x = "Permission in" ∨ x = "Late in" ∨ x = "Half day in" ∨
      x = "Early in" := by
  unfold checkInStatusTags at h
  split at h
  · rcases List.mem_append.mp h with h' | h' <;> split at h' <;> simp_all
  · split at h <;> simp_all

/-- Any tag pushed by the check-out block is one of its five literals. -/
theorem mem_checkOutStatusTags {x : String} {att : AttendanceRec}
    {em date today nowMinutes : Nat}
    (h : x ∈ checkOutStatusTags att em date today nowMinutes) :
    x = "Shift out punch not done" ∨ x = "Working" ∨ x = "Early out" ∨
      x = "Half day out" ∨ x = "Late out" := by
  unfold checkOutStatusTags at h
  split at h
  · split at h
    · simp_all
    · split at h <;> simp_all
  · split at h
    · rcases List.mem_append.mp h with h' | h'
      · simp_all
      · split at h' <;> simp_all
    · split at h <;> simp_all

/-- The status list produced by the main path of `calculateDailyStatus`. -/
theorem calculateDailyStatus_some_status (att : AttendanceRec)
    (leave : Option LeaveReq) (permission : Bool) (settings : AttSettings)
    (date today nowMinutes : Nat) :
    (calculateDailyStatus (some att) leave permission settings date today
        nowMinutes).status =
      withDefaultPresent
        (baseTags date leave ++
          checkInStatusTags (minutesOfDay att.checkInTime)
            (hmToMinutes (settings.workStartTime.getD (9, 0)))
            settings.halfDayThresholdMinutes permission ++
          checkOutStatusTags att
            (hmToMinutes (settings.workEndTime.getD (18, 0)))
            date today nowMinutes) := rfl

/-- Membership of a tag that only the check-in block can push, in the final
status list of the main path. -/
theorem mem_status_iff_checkIn (att : AttendanceRec) (leave : Option LeaveReq)
    (permission : Bool) (settings : AttSettings) (date today nowMinutes : Nat)
    {x : String}
    (hx : x = "Permission in" ∨ x = "Late in" ∨ x = "Half day in" ∨
      x = "Early in") :
    (x ∈ (calculateDailyStatus (some att) leave permission settings date today
        nowMinutes).status ↔
      x ∈ checkInStatusTags (minutesOfDay att.checkInTime)
        (hmToMinutes (settings.workStartTime.getD (9, 0)))
        settings.halfDayThresholdMinutes permission) := by
  rw [calculateDailyStatus_some_status]
  rw [mem_withDefaultPresent (by rcases hx with h | h | h | h <;> subst h <;> decide)]
  simp only [List.mem_append]
  constructor
  · rintro ((hb | hc) | ho)
    · exfalso
      rcases mem_baseTags hb with h' | h' | h' <;>
        rcases hx with h | h | h | h <;> subst h <;> simp_all
    · exact hc
    · exfalso
      rcases mem_checkOutStatusTags ho with h' | h' | h' | h' | h' <;>
        rcases hx with h | h | h | h <;> subst h <;> simp_all
  · intro hc
    exact Or.inl (Or.inr hc)

/-- Membership of a tag that only the check-out block can push, in the final
status list of the main path. -/
theorem mem_status_iff_checkOut (att : AttendanceRec) (leave : Option LeaveReq)
    (permission : Bool) (settings : AttSettings) (date today nowMinutes : Nat)
    {x : String}
    (hx : x = "Early out" ∨ x = "Half day out" ∨ x = "Late out") :
    (x ∈ (calculateDailyStatus (some att) leave permission settings date today
        nowMinutes).status ↔
      x ∈ checkOutStatusTags att
        (hmToMinutes (settings.workEndTime.getD (18, 0)))
        date today nowMinutes) := by
  rw [calculateDailyStatus_some_status]
  rw [mem_withDefaultPresent (by rcases hx with h | h | h <;> subst h <;> decide)]
  simp only [List.mem_append]
  constructor
  · rintro ((hb | hc) | ho)
    · exfalso
      rcases mem_baseTags hb with h' | h' | h' <;>
        rcases hx with h | h | h <;> subst h <;> simp_all
    · exfalso
      rcases mem_checkInStatusTags hc with h' | h' | h' | h' <;>
        rcases hx with h | h | h <;> subst h <;> simp_all
    · exact ho
  · intro ho
    exact Or.inr ho

/-! ## Claim C2 -/

/-- C2: with late cutoff = work-start minutes + 15, a check-in past the
cutoff appends exactly one of "Permission in" (when an approved permission
exists, with remark "Late entry permitted") or "Late in" (otherwise), never
both; "Half day in" is appended iff check-in minutes exceed the half-day
threshold, stacking with either; a check-in earlier than work-start minus 30
appends "Early in" instead, mutually exclusive with the late branch. -/
theorem checkin_late_early_branch (att : AttendanceRec)
    (leave : Option LeaveReq) (permission : Bool) (settings : AttSettings)
    (date today nowMinutes : Nat) :
    (minutesOfDay att.checkInTime >
        hmToMinutes (settings.workStartTime.getD (9, 0)) + 15 →
      (permission = true →
        "Permission in" ∈ (calculateDailyStatus (some att) leave permission
            settings date today nowMinutes).status ∧
        "Late in" ∉ (calculateDailyStatus (some att) leave permission
            settings date today nowMinutes).status ∧
        (leave = none → (calculateDailyStatus (some att) leave permission
            settings date today nowMinutes).remarks = "Late entry permitted")) ∧
      (permission = false →
        "Late in" ∈ (calculateDailyStatus (some att) leave permission
            settings date today nowMinutes).status ∧
        "Permission in" ∉ (calculateDailyStatus (some att) leave permission
            settings date today nowMinutes).status) ∧
      ("Half day in" ∈ (calculateDailyStatus (some att) leave permission
            settings date today nowMinutes).status ↔
        minutesOfDay att.checkInTime >
          jsOrNat settings.halfDayThresholdMinutes 720) ∧
      "Early in" ∉ (calculateDailyStatus (some att) leave permission
          settings date today nowMinutes).status) ∧
    ((minutesOfDay att.checkInTime : Int) <
        (hmToMinutes (settings.workStartTime.getD (9, 0)) : Int) - 30 →
      "Early in" ∈ (calculateDailyStatus (some att) leave permission
          settings date today nowMinutes).status ∧
      "Late in" ∉ (calculateDailyStatus (some att) leave permission
          settings date today nowMinutes).status ∧
      "Permission in" ∉ (calculateDailyStatus (some att) leave permission
          settings date today nowMinutes).status ∧
      "Half day in" ∉ (calculateDailyStatus (some att) leave permission
          settings date today nowMinutes).status) := by
  constructor
  · intro hlate
    have hci : checkInStatusTags (minutesOfDay att.checkInTime)
        (hmToMinutes (settings.workStartTime.getD (9, 0)))
        settings.halfDayThresholdMinutes permission =
        (if permission then ["Permission in"] else ["Late in"]) ++
          (if minutesOfDay att.checkInTime >
              jsOrNat settings.halfDayThresholdMinutes 720 then
            ["Half day in"] else []) := by
      unfold checkInStatusTags
      rw [if_pos hlate]
    refine ⟨fun hp => ?_, fun hp => ?_, ?_, ?_⟩
    · subst hp
      refine ⟨?_, ?_, ?_⟩
      · rw [mem_status_iff_checkIn att leave true settings date today
          nowMinutes (Or.inl rfl), hci]
        simp
      · rw [mem_status_iff_checkIn att leave true settings date today
          nowMinutes (Or.inr (Or.inl rfl)), hci]
        simp only [if_true, List.mem_append]
        rintro (h | h)
        · revert h; decide
        · revert h; split <;> decide
      · intro hleave
        subst hleave
        show joinRemarks
          (leaveRemarks none ++ checkInRemarks (minutesOfDay att.checkInTime)
            (hmToMinutes (settings.workStartTime.getD (9, 0))) true) _ = _
        unfold leaveRemarks checkInRemarks
        rw [if_pos hlate]
        rfl
    · subst hp
      refine ⟨?_, ?_⟩
      · rw [mem_status_iff_checkIn att leave false settings date today
          nowMinutes (Or.inr (Or.inl rfl)), hci]
        simp
      · rw [mem_status_iff_checkIn att leave false settings date today
          nowMinutes (Or.inl rfl), hci]
        simp only [if_false, List.mem_append]
        rintro (h | h)
        · revert h; decide
        · revert h; split <;> decide
    · rw [mem_status_iff_checkIn att leave permission settings date today
        nowMinutes (Or.inr (Or.inr (Or.inl rfl))), hci]
      constructor
      · intro h
        rcases List.mem_append.mp h with h' | h'
        · exfalso; revert h'; split <;> decide
        · revert h'; split
          · intro _; assumption
          · intro h''; exact absurd h'' (List.not_mem_nil _)
      · intro h
        refine List.mem_append.mpr (Or.inr ?_)
        rw [if_pos h]
        simp
    · rw [mem_status_iff_checkIn att leave permission settings date today
        nowMinutes (Or.inr (Or.inr (Or.inr rfl))), hci]
      intro h
      rcases List.mem_append.mp h with h' | h'
      · revert h'; split <;> decide
      · revert h'; split <;> decide
  · intro hearly
    have hnotlate : ¬ (minutesOfDay att.checkInTime >
        hmToMinutes (settings.workStartTime.getD (9, 0)) + 15) := by
      intro h
      omega
    have hci : checkInStatusTags (minutesOfDay att.checkInTime)
        (hmToMinutes (settings.workStartTime.getD (9, 0)))
        settings.halfDayThresholdMinutes permission = ["Early in"] := by
      unfold checkInStatusTags
      rw [if_neg hnotlate, if_pos hearly]
    refine ⟨?_, ?_, ?_, ?_⟩
    · rw [mem_status_iff_checkIn att leave permission settings date today
        nowMinutes (Or.inr (Or.inr (Or.inr rfl))), hci]
      simp
    · rw [mem_status_iff_checkIn att leave permission settings date today
        nowMinutes (Or.inr (Or.inl rfl)), hci]
      decide
    · rw [mem_status_iff_checkIn att leave permission settings date today
        nowMinutes (Or.inl rfl), hci]
      decide
    · rw [mem_status_iff_checkIn att leave permission settings date today
        nowMinutes (Or.inr (Or.inr (Or.inl rfl))), hci]
      decide

/-- C2 witness: check-in at 09:20 (minute 560) against default settings
(work start 09:00), with an approved permission and no leave. -/
theorem checkin_late_early_branch_witness :
    "Permission in" ∈ (calculateDailyStatus
        (some { checkInTime := 560, checkOutTime := some 1080 }) none true
        { workStartTime := none, workEndTime := none,
          halfDayThresholdMinutes := none } 1 1 600).status ∧
    "Late in" ∉ (calculateDailyStatus
        (some { checkInTime := 560, checkOutTime := some 1080 }) none true
        { workStartTime := none, workEndTime := none,
          halfDayThresholdMinutes := none } 1 1 600).status ∧
    (calculateDailyStatus
        (some { checkInTime := 560, checkOutTime := some 1080 }) none true
        { workStartTime := none, workEndTime := none,
          halfDayThresholdMinutes := none } 1 1 600).remarks =
      "Late entry permitted" := by
  have h := ((checkin_late_early_branch
    { checkInTime := 560, checkOutTime := some 1080 } none true
    { workStartTime := none, workEndTime := none,
      halfDayThresholdMinutes := none } 1 1 600).1 (by decide)).1 rfl
  exact ⟨h.1, h.2.1, h.2.2 rfl⟩

/-! ## Claim C3 -/

/-- C3: with a recorded check-out, a check-out before work-end appends
"Early out" and additionally "Half day out" iff the session duration
(check-out minus check-in) is under 240 minutes; a check-out after
work-end + 30 appends "Late out". -/
theorem checkout_early_late_branch (att : AttendanceRec)
    (leave : Option LeaveReq) (permission : Bool) (settings : AttSettings)
    (date today nowMinutes co : Nat) (hco : att.checkOutTime = some co) :
    (minutesOfDay co < hmToMinutes (settings.workEndTime.getD (18, 0)) →
      "Early out" ∈ (calculateDailyStatus (some att) leave permission settings
          date today nowMinutes).status ∧
      ("Half day out" ∈ (calculateDailyStatus (some att) leave permission
          settings date today nowMinutes).status ↔
        (co : Int) - (att.checkInTime : Int) < 240)) ∧
    (minutesOfDay co > hmToMinutes (settings.workEndTime.getD (18, 0)) + 30 →
      "Late out" ∈ (calculateDailyStatus (some att) leave permission settings
          date today nowMinutes).status) := by
  have hct0 : checkOutStatusTags att
      (hmToMinutes (settings.workEndTime.getD (18, 0))) date today nowMinutes =
      (if minutesOfDay co < hmToMinutes (settings.workEndTime.getD (18, 0))
       then
        ["Early out"] ++
          (if (co : Int) - (att.checkInTime : Int) < 240 then ["Half day out"]
           else [])
       else if minutesOfDay co >
          hmToMinutes (settings.workEndTime.getD (18, 0)) + 30 then
        ["Late out"]
       else []) := by
    unfold checkOutStatusTags
    rw [hco]
  constructor
  · intro h1
    have hct : checkOutStatusTags att
        (hmToMinutes (settings.workEndTime.getD (18, 0))) date today
        nowMinutes =
        ["Early out"] ++
          (if (co : Int) - (att.checkInTime : Int) < 240 then ["Half day out"]
           else []) := by
      rw [hct0, if_pos h1]
    constructor
    · rw [mem_status_iff_checkOut att leave permission settings date today
        nowMinutes (Or.inl rfl), hct]
      simp
    · rw [mem_status_iff_checkOut att leave permission settings date today
        nowMinutes (Or.inr (Or.inl rfl)), hct]
      constructor
      · intro h
        rcases List.mem_append.mp h with h' | h'
        · exfalso; revert h'; decide
        · revert h'
          split
          · intro _; assumption
          · intro h''; exact absurd h'' (List.not_mem_nil _)
      · intro h
        refine List.mem_append.mpr (Or.inr ?_)
        rw [if_pos h]
        simp
  · intro h2
    have hnot : ¬ (minutesOfDay co <
        hmToMinutes (settings.workEndTime.getD (18, 0))) := by omega
    have hct : checkOutStatusTags att
        (hmToMinutes (settings.workEndTime.getD (18, 0))) date today
        nowMinutes = ["Late out"] := by
      rw [hct0, if_neg hnot, if_pos h2]
    rw [mem_status_iff_checkOut att leave permission settings date today
      nowMinutes (Or.inr (Or.inr rfl)), hct]
    simp

/-- C3 witness: check-in 09:05 (minute 545), check-out 17:00 (minute 1020),
default work end 18:00 — "Early out" is appended but, with a session of
475 ≥ 240 minutes, "Half day out" is not. -/
theorem checkout_early_late_branch_witness :
    "Early out" ∈ (calculateDailyStatus
        (some { checkInTime := 545, checkOutTime := some 1020 }) none false
        { workStartTime := none, workEndTime := none,
          halfDayThresholdMinutes := none } 1 1 600).status ∧
    "Half day out" ∉ (calculateDailyStatus
        (some { checkInTime := 545, checkOutTime := some 1020 }) none false
        { workStartTime := none, workEndTime := none,
          halfDayThresholdMinutes := none } 1 1 600).status := by
  have h := (checkout_early_late_branch
    { checkInTime := 545, checkOutTime := some 1020 } none false
    { workStartTime := none, workEndTime := none,
      halfDayThresholdMinutes := none } 1 1 600 1020 rfl).1 (by decide)
  refine ⟨h.1, fun hm => ?_⟩
  have := h.2.mp hm
  revert this
  decide

/-- `colorOf` never yields "gray": gray only comes from the terminal
Sunday result. -/
theorem colorOf_ne_gray (l : List String) : colorOf l ≠ "gray" := by
  simp only [colorOf]
  split
  · decide
  · split
    · decide
    · split <;> decide

/-! ## Claim C5 -/

/-- C5: on a Sunday with no attendance record the result is exactly the
terminal `["Week off"]` / "Sunday Holiday" / gray value and no further
resolution runs; with an attendance record, "Week off worked" is appended
and resolution continues (the terminal value is not produced, and in
particular the color is not gray and "Week off" is not among the tags). -/
theorem sunday_week_off (leave : Option LeaveReq) (permission : Bool)
    (settings : AttSettings) (date today nowMinutes : Nat)
    (hsun : date % 7 = 0) :
    (calculateDailyStatus none leave permission settings date today
        nowMinutes =
      { status := ["Week off"], remarks := "Sunday Holiday",
        color := "gray" }) ∧
    (∀ att : AttendanceRec,
      "Week off worked" ∈ (calculateDailyStatus (some att) leave permission
          settings date today nowMinutes).status ∧
      "Week off" ∉ (calculateDailyStatus (some att) leave permission settings
          date today nowMinutes).status ∧
      (calculateDailyStatus (some att) leave permission settings date today
          nowMinutes).color ≠ "gray" ∧
      calculateDailyStatus (some att) leave permission settings date today
          nowMinutes ≠
        { status := ["Week off"], remarks := "Sunday Holiday",
          color := "gray" }) := by
  constructor
  · show (if date % 7 = 0 then _ else _) = _
    rw [if_pos hsun]
  · intro att
    have hcolor : (calculateDailyStatus (some att) leave permission settings
        date today nowMinutes).color =
        colorOf (calculateDailyStatus (some att) leave permission settings
          date today nowMinutes).status := rfl
    refine ⟨?_, ?_, ?_, ?_⟩
    · rw [calculateDailyStatus_some_status,
        mem_withDefaultPresent (by decide)]
      refine List.mem_append.mpr (Or.inl (List.mem_append.mpr (Or.inl ?_)))
      unfold baseTags
      rw [if_pos hsun]
      simp
    · intro h
      rw [calculateDailyStatus_some_status,
        mem_withDefaultPresent (by decide)] at h
      rcases List.mem_append.mp h with h' | h'
      · rcases List.mem_append.mp h' with h'' | h''
        · rcases mem_baseTags h'' with h3 | h3 | h3 <;> revert h3 <;> decide
        · rcases mem_checkInStatusTags h'' with h3 | h3 | h3 | h3 <;>
            revert h3 <;> decide
      · rcases mem_checkOutStatusTags h' with h3 | h3 | h3 | h3 | h3 <;>
          revert h3 <;> decide
    · rw [hcolor]
      exact colorOf_ne_gray _
    · intro heq
      exact colorOf_ne_gray _ (by rw [← hcolor, heq])

/-- C5 witness: a concrete Sunday (day 7), settings defaults, no leave,
attendance either absent or a 09:00–18:00 session. -/
theorem sunday_week_off_witness :
    calculateDailyStatus none none false
      { workStartTime := none, workEndTime := none,
        halfDayThresholdMinutes := none } 7 7 600 =
      { status := ["Week off"], remarks := "Sunday Holiday",
        color := "gray" } ∧
    "Week off worked" ∈ (calculateDailyStatus
        (some { checkInTime := 540, checkOutTime := some 1080 }) none false
        { workStartTime := none, workEndTime := none,
          halfDayThresholdMinutes := none } 7 7 600).status := by
  have h := sunday_week_off none false
    { workStartTime := none, workEndTime := none,
      halfDayThresholdMinutes := none } 7 7 600 (by decide)
  exact ⟨h.1, (h.2 { checkInTime := 540, checkOutTime := some 1080 }).1⟩

/-! ## Claim C6 -/

/-- C6: for every result of the main (non-terminal) path, the color equals
`colorOf` of the final tag list, and `colorOf` implements exactly the
later-overrides-earlier rules: green by default, red on Absent / missing
out-punch, orange (overriding red) on Late in / Early out / Half day in /
Half day out, blue (overriding both) on Leave. -/
theorem color_from_final_tags (att : AttendanceRec) (leave : Option LeaveReq)
    (permission : Bool) (settings : AttSettings) (date today nowMinutes : Nat) :
    (calculateDailyStatus (some att) leave permission settings date today
        nowMinutes).color =
      colorOf (calculateDailyStatus (some att) leave permission settings date
        today nowMinutes).status ∧
    ∀ l : List String,
      (l.contains "Leave" = true → colorOf l = "blue") ∧
      (l.contains "Leave" = false →
        (l.contains "Late in" || l.contains "Early out" ||
          l.contains "Half day in" || l.contains "Half day out") = true →
        colorOf l = "orange") ∧
      (l.contains "Leave" = false →
        (l.contains "Late in" || l.contains "Early out" ||
          l.contains "Half day in" || l.contains "Half day out") = false →
        (l.contains "Absent" ||
          l.contains "Shift out punch not done") = true →
        colorOf l = "red") ∧
      (l.contains "Leave" = false →
        (l.contains "Late in" || l.contains "Early out" ||
          l.contains "Half day in" || l.contains "Half day out") = false →
        (l.contains "Absent" ||
          l.contains "Shift out punch not done") = false →
        colorOf l = "green") := by
  refine ⟨rfl, fun l => ⟨?_, ?_, ?_, ?_⟩⟩
  · intro hL
    simp only [colorOf, hL]
    rfl
  · intro hL hO
    simp only [colorOf, hL, hO]
    rfl
  · intro hL hO hR
    simp only [colorOf, hL, hO, hR]
    rfl
  · intro hL hO hR
    simp only [colorOf, hL, hO, hR]
    rfl

/-- C6 witness: a concrete main-path result, plus the override rules
evaluated on the tag list ["Leave", "Late in", "Absent"]. -/
theorem color_from_final_tags_witness :
    (calculateDailyStatus
        (some { checkInTime := 560, checkOutTime := some 1080 }) none false
        { workStartTime := none, workEndTime := none,
          halfDayThresholdMinutes := none } 1 1 600).color =
      colorOf (calculateDailyStatus
        (some { checkInTime := 560, checkOutTime := some 1080 }) none false
        { workStartTime := none, workEndTime := none,
          halfDayThresholdMinutes := none } 1 1 600).status ∧
    colorOf ["Leave", "Late in", "Absent"] = "blue" := by
  have h := color_from_final_tags
    { checkInTime := 560, checkOutTime := some 1080 } none false
    { workStartTime := none, workEndTime := none,
      halfDayThresholdMinutes := none } 1 1 600
  exact ⟨h.1, (h.2 ["Leave", "Late in", "Absent"]).1 (by decide)⟩

/-! ## Claim C9 -/

/-- C9: the duration computation returns `attendanceMinutes` equal to the sum
over the day's sessions of `(checkOutTime ?? now) - checkInTime` (open
sessions counting to `now`), `permissionMinutes` equal to the sum of the
date's approved PERMISSION durations, and their uncapped sum as
`totalWorkDurationMinutes`; sessions 09:00–12:00 and 13:00–17:00 plus one
approved 30-minute permission give 450 total. -/
theorem durations_sum (sessions : List Session) (reqs : List RequestRec)
    (employeeId date now : Nat) :
    (computeDurations sessions reqs employeeId date
        now).attendanceDurationMinutes =
      (sessions.map fun s =>
        ((s.checkOutTime.getD now : Nat) : Int) - (s.checkInTime : Int)).sum ∧
    (computeDurations sessions reqs employeeId date
        now).permissionDurationMinutes =
      ((getApprovedPermissions reqs employeeId date).map fun p =>
        p.duration.getD 0).sum ∧
    (computeDurations sessions reqs employeeId date
        now).totalWorkDurationMinutes =
      (computeDurations sessions reqs employeeId date
        now).attendanceDurationMinutes +
        (computeDurations sessions reqs employeeId date
          now).permissionDurationMinutes ∧
    computeDurations
        [{ attendanceId := 1, date := 0, checkInTime := 540,
           checkOutTime := some 720 },
         { attendanceId := 2, date := 0, checkInTime := 780,
           checkOutTime := some 1020 }]
        [{ employeeId := 7, type := "PERMISSION", status := "APPROVED",
           date := some 0, duration := some 30 }] 7 0 1440 =
      { attendanceDurationMinutes := 420, permissionDurationMinutes := 30,
        totalWorkDurationMinutes := 450 } := by
  refine ⟨?_, ?_, rfl, by decide⟩
  · show attendanceDurationMinutes sessions now = _
    unfold attendanceDurationMinutes
    rw [foldl_add_map_sum]
    simp
  · show permissionDurationMinutes (getApprovedPermissions reqs employeeId
      date) = _
    unfold permissionDurationMinutes
    rw [foldl_add_map_sum]
    simp

/-! ## Claim C7 -/

/-- C7: on the status-read path, a tracking employee whose last ping is more
than 10 minutes old has `isTracking` forced to false; only the tracking flag
changes (`lastPingTime` is preserved), the session list is untouched and any
open session remains open. -/
theorem status_read_staleness (st : TrackState) (now t : Nat)
    (htrack : st.emp.isTracking = true)
    (hping : st.emp.lastPingTime = some t)
    (hstale : (now : Int) - (t : Int) > 10) :
    (handleStatusRead st now).1.isTracking = false ∧
    (handleStatusRead st now).1.autoCheckedOut = true ∧
    (handleStatusRead st now).2.emp = { st.emp with isTracking := false } ∧
    (handleStatusRead st now).2.emp.lastPingTime = st.emp.lastPingTime ∧
    (handleStatusRead st now).2.sessions = st.sessions ∧
    (handleStatusRead st now).2.pings = st.pings ∧
    ∀ s ∈ st.sessions, s.checkOutTime = none →
      s ∈ (handleStatusRead st now).2.sessions ∧ s.checkOutTime = none := by
  have hred : handleStatusRead st now =
      ({ isTracking := false, autoCheckedOut := true },
       { st with emp := { st.emp with isTracking := false } }) := by
    unfold handleStatusRead
    rw [hping]
    exact if_pos ⟨htrack, hstale⟩
  rw [hred]
  exact ⟨rfl, rfl, rfl, rfl, rfl, rfl, fun s hs hopen => ⟨hs, hopen⟩⟩

/-- C7 witness: last ping at minute 100, read at minute 120, one open
session — tracking flips off, the session stays open. -/
theorem status_read_staleness_witness :
    (handleStatusRead
        { emp := empTracking,
          sessions := [{ attendanceId := 1, date := 0, checkInTime := 95,
                         checkOutTime := none }],
          pings := [] } 120).1.isTracking = false ∧
    (handleStatusRead
        { emp := empTracking,
          sessions := [{ attendanceId := 1, date := 0, checkInTime := 95,
                         checkOutTime := none }],
          pings := [] } 120).2.sessions =
      [{ attendanceId := 1, date := 0, checkInTime := 95,
         checkOutTime := none }] := by
  have h := status_read_staleness
    { emp := empTracking,
      sessions := [{ attendanceId := 1, date := 0, checkInTime := 95,
                     checkOutTime := none }],
      pings := [] } 120 100 rfl rfl (by decide)
  exact ⟨h.1, h.2.2.2.2.1⟩

/-! ## Claim C8 -/

/-- C8: check-in for an employee with `isTracking = true` resolves by open
session: an open session dated today rejects the check-in with a structured
duplicate outcome and leaves the state untouched; an open session from a
prior day is auto-closed and the check-in proceeds; no open session (ghost
tracking) lets the check-in proceed, self-healing. Every case yields a
structured outcome (the handler is total). -/
theorem checkin_tracking_resolution (st : TrackState)
    (today now newId : Nat) (lat lng : Int)
    (htrack : st.emp.isTracking = true) :
    (∀ s, getOpenSession st.sessions = some s → s.date = today →
      handleCheckIn st today now newId lat lng =
        (CheckInOutcome.duplicateRejected, st)) ∧
    (∀ s, getOpenSession st.sessions = some s → s.date ≠ today →
      (handleCheckIn st today now newId lat lng).1 =
        CheckInOutcome.success true ∧
      (handleCheckIn st today now newId lat lng).2.sessions =
        checkOutSession st.sessions s.attendanceId now ++
          [{ attendanceId := newId, date := today, checkInTime := now,
             checkOutTime := none }] ∧
      (handleCheckIn st today now newId lat lng).2.emp.isTracking = true) ∧
    (getOpenSession st.sessions = none →
      (handleCheckIn st today now newId lat lng).1 =
        CheckInOutcome.success false ∧
      (handleCheckIn st today now newId lat lng).2.sessions =
        st.sessions ++
          [{ attendanceId := newId, date := today, checkInTime := now,
             checkOutTime := none }] ∧
      (handleCheckIn st today now newId lat lng).2.emp.isTracking = true) ∧
    ((handleCheckIn st today now newId lat lng).1 =
        CheckInOutcome.duplicateRejected ∨
      ∃ b, (handleCheckIn st today now newId lat lng).1 =
        CheckInOutcome.success b) := by
  refine ⟨?_, ?_, ?_, ?_⟩
  · intro s hs hd
    unfold handleCheckIn
    rw [htrack, if_pos rfl, hs]
    exact if_pos hd
  · intro s hs hd
    unfold handleCheckIn
    rw [htrack, if_pos rfl, hs]
    dsimp only
    rw [if_neg hd]
    exact ⟨rfl, rfl, rfl⟩
  · intro hs
    unfold handleCheckIn
    rw [htrack, if_pos rfl, hs]
    exact ⟨rfl, rfl, rfl⟩
  · cases h : (handleCheckIn st today now newId lat lng).1 with
    | duplicateRejected => exact Or.inl rfl
    | success b => exact Or.inr ⟨b, rfl⟩

/-- C8 witness: duplicate rejection on an open session dated today, and the
ghost-tracking self-heal with no open session. -/
theorem checkin_tracking_resolution_witness :
    handleCheckIn
        { emp := empTracking,
          sessions := [{ attendanceId := 1, date := 5, checkInTime := 540,
                         checkOutTime := none }],
          pings := [] } 5 600 2 0 0 =
      (CheckInOutcome.duplicateRejected,
       { emp := empTracking,
         sessions := [{ attendanceId := 1, date := 5, checkInTime := 540,
                        checkOutTime := none }],
         pings := [] }) ∧
    (handleCheckIn
        { emp := empTracking, sessions := [], pings := [] } 5 600 2 0 0).1 =
      CheckInOutcome.success false := by
  constructor
  · exact (checkin_tracking_resolution
      { emp := empTracking,
        sessions := [{ attendanceId := 1, date := 5, checkInTime := 540,
                       checkOutTime := none }],
        pings := [] } 5 600 2 0 0 rfl).1
      { attendanceId := 1, date := 5, checkInTime := 540,
        checkOutTime := none } rfl rfl
  · exact ((checkin_tracking_resolution
      { emp := empTracking, sessions := [], pings := [] } 5 600 2 0 0
      rfl).2.2.1 rfl).1

/-! ## Claim C4 -/

/-- Membership under stable insertion. -/
theorem mem_insertByCheckIn {x r : AttRecord} {l : List AttRecord} :
    x ∈ insertByCheckIn r l ↔ x = r ∨ x ∈ l := by
  induction l with
  | nil => simp [insertByCheckIn]
  | cons y ys ih =>
    unfold insertByCheckIn
    split
    · simp [List.mem_cons]
    · simp [List.mem_cons, ih]
      tauto

/-- Sorting preserves membership. -/
theorem mem_sortByCheckIn {x : AttRecord} {l : List AttRecord} :
    x ∈ sortByCheckIn l ↔ x ∈ l := by
  induction l with
  | nil => simp [sortByCheckIn]
  | cons y ys ih => simp [sortByCheckIn, mem_insertByCheckIn, ih]

/-- Insertion preserves ascending order by `checkInTime`. -/
theorem pairwise_insertByCheckIn (r : AttRecord) (l : List AttRecord)
    (h : l.Pairwise fun a b => a.checkInTime ≤ b.checkInTime) :
    (insertByCheckIn r l).Pairwise
      fun a b => a.checkInTime ≤ b.checkInTime := by
  induction l with
  | nil => simp [insertByCheckIn]
  | cons y ys ih =>
    rw [List.pairwise_cons] at h
    unfold insertByCheckIn
    split
    · rename_i hlt
      refine List.pairwise_cons.mpr ⟨?_, List.pairwise_cons.mpr h⟩
      intro b hb
      rcases List.mem_cons.mp hb with rfl | hb
      · exact Nat.le_of_lt hlt
      · exact Nat.le_trans (Nat.le_of_lt hlt) (h.1 b hb)
    · rename_i hnlt
      refine List.pairwise_cons.mpr ⟨?_, ih h.2⟩
      intro b hb
      rcases mem_insertByCheckIn.mp hb with rfl | hb
      · exact Nat.le_of_not_lt hnlt
      · exact h.1 b hb

/-- The sorted list is ascending by `checkInTime`. -/
theorem pairwise_sortByCheckIn (l : List AttRecord) :
    (sortByCheckIn l).Pairwise fun a b => a.checkInTime ≤ b.checkInTime := by
  induction l with
  | nil => simp [sortByCheckIn]
  | cons y ys ih => exact pairwise_insertByCheckIn y (sortByCheckIn ys) ih

/-- `getLastD` picks an element of the nonempty list `x :: xs`. -/
theorem getLastD_mem_cons (xs : List AttRecord) (x : AttRecord) :
    xs.getLastD x ∈ x :: xs := by
  induction xs generalizing x with
  | nil => simp [List.getLastD]
  | cons y ys ih =>
    have := ih y
    simp only [List.getLastD]
    rcases List.mem_cons.mp this with h | h
    · simp [h]
    · simp [h]

/-- In a list ascending by `checkInTime`, every element's check-in is at most
the last element's. -/
theorem le_getLastD_of_pairwise :
    ∀ (x : AttRecord) (xs : List AttRecord),
      ((x :: xs).Pairwise fun a b => a.checkInTime ≤ b.checkInTime) →
      ∀ r ∈ x :: xs, r.checkInTime ≤ (xs.getLastD x).checkInTime := by
  intro x xs
  induction xs generalizing x with
  | nil =>
    intro _ r hr
    rcases List.mem_cons.mp hr with rfl | hr
    · exact Nat.le_refl _
    · exact absurd hr (List.not_mem_nil _)
  | cons y ys ih =>
    intro hp r hr
    rw [List.pairwise_cons] at hp
    rw [List.getLastD_cons]
    rcases List.mem_cons.mp hr with rfl | hr
    · exact Nat.le_trans (hp.1 y (by simp))
        (ih y hp.2 y (by simp))
    · exact ih y hp.2 r hr

/-- C4 counterexample: two closed sessions 09:00–18:00 and 10:00–11:00.
The latest check-out of the day is minute 1080, but the envelope takes the
check-out of the record with the latest check-in and yields 660. -/
theorem report_envelope_counterexample :
    effectiveAttendance
        [{ checkInTime := 540, checkOutTime := some 1080 },
         { checkInTime := 600, checkOutTime := some 660 }] =
      some { checkInTime := 540, checkOutTime := some 660 } ∧
    some 1080 ∈
      ([{ checkInTime := 540, checkOutTime := some 1080 },
        { checkInTime := 600, checkOutTime := some 660 }].map
          AttRecord.checkOutTime) ∧
    (660 : Nat) < 1080 := by
  decide

/-- C4 (amended): for a day with records, the envelope's `checkInTime` is the
earliest check-in; its `checkOutTime` is the `checkOutTime` field (possibly
absent) of a record with the *latest check-in* — not the latest check-out of
the day. -/
theorem report_effective_attendance (recs : List AttRecord)
    (h : recs ≠ []) :
    ∃ a ∈ recs, ∃ b ∈ recs,
      effectiveAttendance recs =
        some { checkInTime := a.checkInTime,
               checkOutTime := b.checkOutTime } ∧
      (∀ r ∈ recs, a.checkInTime ≤ r.checkInTime) ∧
      (∀ r ∈ recs, r.checkInTime ≤ b.checkInTime) := by
  obtain ⟨x, xs, hsort⟩ : ∃ x xs, sortByCheckIn recs = x :: xs := by
    cases hrecs : recs with
    | nil => exact absurd hrecs h
    | cons r rs =>
      cases hs : sortByCheckIn (r :: rs) with
      | nil =>
        exfalso
        have : r ∈ sortByCheckIn (r :: rs) :=
          mem_sortByCheckIn.mpr (by simp)
        rw [hs] at this
        exact absurd this (List.not_mem_nil _)
      | cons x xs => exact ⟨x, xs, rfl⟩
  have hsorted := pairwise_sortByCheckIn recs
  rw [hsort] at hsorted
  have hx_mem : x ∈ recs := mem_sortByCheckIn.mp (by rw [hsort]; simp)
  have hb_mem : xs.getLastD x ∈ recs :=
    mem_sortByCheckIn.mp (by rw [hsort]; exact getLastD_mem_cons xs x)
  refine ⟨x, hx_mem, xs.getLastD x, hb_mem, ?_, ?_, ?_⟩
  · unfold effectiveAttendance
    rw [hsort]
  · intro r hr
    have hr' : r ∈ x :: xs := by
      rw [← hsort]; exact mem_sortByCheckIn.mpr hr
    rcases List.mem_cons.mp hr' with rfl | hr'
    · exact Nat.le_refl _
    · exact (List.pairwise_cons.mp hsorted).1 r hr'
  · intro r hr
    have hr' : r ∈ x :: xs := by
      rw [← hsort]; exact mem_sortByCheckIn.mpr hr
    exact le_getLastD_of_pairwise x xs hsorted r hr'

/-- C4 amended-theorem witness: the counterexample record list. -/
theorem report_effective_attendance_witness :
    ([{ checkInTime := 540, checkOutTime := some 1080 },
      { checkInTime := 600, checkOutTime := some 660 }] :
        List AttRecord) ≠ [] ∧
    ∃ a ∈ ([{ checkInTime := 540, checkOutTime := some 1080 },
            { checkInTime := 600, checkOutTime := some 660 }] :
              List AttRecord),
      ∃ b ∈ ([{ checkInTime := 540, checkOutTime := some 1080 },
              { checkInTime := 600, checkOutTime := some 660 }] :
                List AttRecord),
        effectiveAttendance
            [{ checkInTime := 540, checkOutTime := some 1080 },
             { checkInTime := 600, checkOutTime := some 660 }] =
          some { checkInTime := a.checkInTime,
                 checkOutTime := b.checkOutTime } ∧
        (∀ r ∈ ([{ checkInTime := 540, checkOutTime := some 1080 },
                 { checkInTime := 600, checkOutTime := some 660 }] :
                   List AttRecord), a.checkInTime ≤ r.checkInTime) ∧
        (∀ r ∈ ([{ checkInTime := 540, checkOutTime := some 1080 },
                 { checkInTime := 600, checkOutTime := some 660 }] :
                   List AttRecord), r.checkInTime ≤ b.checkInTime) :=
  ⟨by decide,
   report_effective_attendance
     [{ checkInTime := 540, checkOutTime := some 1080 },
      { checkInTime := 600, checkOutTime := some 660 }] (by decide)⟩

/-! ## Ping handler lemmas -/

/-- The inside flag of the fence scan is "within any fence". -/
theorem scanFences_fst (fences : List FenceEval) :
    (scanFences fences).1 = fences.any fun f => f.isWithin := by
  suffices h : ∀ (l : List FenceEval) (acc : Bool × Option Int × Option Nat),
      (l.foldl scanStep acc).1 = (acc.1 || l.any fun f => f.isWithin) by
    simpa using h fences (false, none, none)
  intro l
  induction l with
  | nil => simp
  | cons f fs ih =>
    intro acc
    rw [List.foldl_cons, ih]
    have hstep : (scanStep acc f).1 = (acc.1 || f.isWithin) := by
      cases hw : f.isWithin <;> cases hd : ltMinDistance f.distance acc.2.1 <;>
        simp [scanStep, hw, hd]
    rw [hstep]
    simp [Bool.or_assoc]

/-- Reduction of the ping handler on a tracking employee, outside all fences,
below the auto-checkout threshold. -/
theorem handlePing_outside_lt (st : TrackState) (fences : List FenceEval)
    (lat lng : Int) (now : Nat) (htrack : st.emp.isTracking = true)
    (hout : (scanFences fences).1 = false)
    (hlt : st.emp.outsideGeofenceCount + 1 < 5) :
    handlePing st fences lat lng now =
      ({ tracking := true, notTracking := false, autoCheckedOut := false,
         isInsideGeofence := false, distance := (scanFences fences).2.1,
         closestBranch := (scanFences fences).2.2,
         outsideGeofenceCount := st.emp.outsideGeofenceCount + 1 },
       { emp := { st.emp with
                    lastLatitude := some lat, lastLongitude := some lng,
                    lastPingTime := some now, isInsideGeofence := false,
                    outsideGeofenceCount := st.emp.outsideGeofenceCount + 1 },
         sessions := st.sessions,
         pings := st.pings ++
           [{ latitude := lat, longitude := lng, isInsideGeofence := false,
              distance := (scanFences fences).2.1,
              closestBranch := (scanFences fences).2.2 }] }) := by
  unfold handlePing
  rw [htrack]
  rw [if_neg (by decide : ¬ (true = false))]
  dsimp only
  rw [hout]
  rw [if_pos rfl]
  rw [if_neg (by
    unfold OUTSIDE_GEOFENCE_CHECKOUT_THRESHOLD
    omega)]

/-- Reduction of the ping handler on a tracking employee, outside all fences,
reaching the auto-checkout threshold. -/
theorem handlePing_outside_ge (st : TrackState) (fences : List FenceEval)
    (lat lng : Int) (now : Nat) (htrack : st.emp.isTracking = true)
    (hout : (scanFences fences).1 = false)
    (hge : 5 ≤ st.emp.outsideGeofenceCount + 1) :
    handlePing st fences lat lng now =
      ({ tracking := false, notTracking := false, autoCheckedOut := true,
         isInsideGeofence := false, distance := (scanFences fences).2.1,
         closestBranch := (scanFences fences).2.2,
         outsideGeofenceCount := st.emp.outsideGeofenceCount + 1 },
       { emp := { st.emp with
                    isTracking := false, outsideGeofenceCount := 0,
                    autoCheckoutReason := some "outside_geofence",
                    lastLatitude := some lat, lastLongitude := some lng,
                    lastPingTime := some now },
         sessions :=
           match getOpenSession st.sessions with
           | some s => checkOutSession st.sessions s.attendanceId now
           | none => st.sessions,
         pings := st.pings ++
           [{ latitude := lat, longitude := lng, isInsideGeofence := false,
              distance := (scanFences fences).2.1,
              closestBranch := (scanFences fences).2.2 }] }) := by
  unfold handlePing
  rw [htrack]
  rw [if_neg (by decide : ¬ (true = false))]
  dsimp only
  rw [hout]
  rw [if_pos rfl]
  rw [if_pos (by
    unfold OUTSIDE_GEOFENCE_CHECKOUT_THRESHOLD
    omega)]

/-- Reduction of the ping handler on a tracking employee inside some fence. -/
theorem handlePing_inside (st : TrackState) (fences : List FenceEval)
    (lat lng : Int) (now : Nat) (htrack : st.emp.isTracking = true)
    (hin : (scanFences fences).1 = true) :
    handlePing st fences lat lng now =
      ({ tracking := true, notTracking := false, autoCheckedOut := false,
         isInsideGeofence := true, distance := (scanFences fences).2.1,
         closestBranch := (scanFences fences).2.2,
         outsideGeofenceCount := 0 },
       { emp := { st.emp with
                    lastLatitude := some lat, lastLongitude := some lng,
                    lastPingTime := some now, isInsideGeofence := true,
                    outsideGeofenceCount := 0 },
         sessions := st.sessions,
         pings := st.pings ++
           [{ latitude := lat, longitude := lng, isInsideGeofence := true,
              distance := (scanFences fences).2.1,
              closestBranch := (scanFences fences).2.2 }] }) := by
  unfold handlePing
  rw [htrack]
  rw [if_neg (by decide : ¬ (true = false))]
  dsimp only
  rw [hin]
  rw [if_neg (by decide : ¬ (true = false))]

/-- After `n ≤ 4` consecutive outside pings from a fresh tracking state
(counter 0), the employee is still tracking, the counter reads `n`, and the
session list is untouched. -/
theorem iteratePing_outside_le4 (fences : List FenceEval) (lat lng : Int)
    (now : Nat) (hout : (scanFences fences).1 = false) (st : TrackState)
    (htrack : st.emp.isTracking = true)
    (h0 : st.emp.outsideGeofenceCount = 0) :
    ∀ n, n ≤ 4 →
      (iteratePing fences lat lng now n st).emp.isTracking = true ∧
      (iteratePing fences lat lng now n st).emp.outsideGeofenceCount = n ∧
      (iteratePing fences lat lng now n st).sessions = st.sessions := by
  intro n
  induction n with
  | zero => intro _; exact ⟨htrack, h0, rfl⟩
  | succ k ih =>
    intro hk
    obtain ⟨ht, hc, hsess⟩ := ih (Nat.le_of_succ_le hk)
    have hred := handlePing_outside_lt (iteratePing fences lat lng now k st)
      fences lat lng now ht hout (by omega)
    simp only [iteratePing]
    rw [hred]
    refine ⟨ht, ?_, hsess⟩
    dsimp only
    omega

/-- Closing the open session by id marks exactly that session as checked out
(ids assumed unique). -/
theorem mem_checkOutSession_of_nodup (sessions : List Session) (s : Session)
    (now : Nat) (hs : s ∈ sessions)
    (hnd : (sessions.map Session.attendanceId).Nodup) :
    { s with checkOutTime := some now } ∈
      checkOutSession sessions s.attendanceId now := by
  induction sessions with
  | nil => exact absurd hs (List.not_mem_nil _)
  | cons x rest ih =>
    rw [List.map_cons, List.nodup_cons] at hnd
    unfold checkOutSession
    split
    · rename_i heq
      rcases List.mem_cons.mp hs with rfl | hmem
      · exact List.mem_cons_self _ _
      · exact absurd (by rw [heq]; exact List.mem_map_of_mem _ hmem) hnd.1
    · rename_i hne
      rcases List.mem_cons.mp hs with rfl | hmem
      · exact absurd rfl hne
      · exact List.mem_cons_of_mem _ (ih hmem hnd.2)

/-- A fold step can only return its accumulator or the new element. -/
theorem openStep_cases (acc : Option Session) (x s : Session)
    (h : openStep acc x = some s) : s = x ∨ acc = some s := by
  unfold openStep at h
  by_cases hco : x.checkOutTime = none
  · rw [if_pos hco] at h
    cases acc with
    | none => exact Or.inl (Option.some.inj h).symm
    | some b =>
      dsimp only at h
      by_cases hgt : x.checkInTime > b.checkInTime
      · rw [if_pos hgt] at h
        exact Or.inl (Option.some.inj h).symm
      · rw [if_neg hgt] at h
        exact Or.inr h
  · rw [if_neg hco] at h
    exact Or.inr h

/-- The open session returned by `getOpenSession` is one of the sessions. -/
theorem getOpenSession_mem {l : List Session} {s : Session}
    (h : getOpenSession l = some s) : s ∈ l := by
  suffices haux : ∀ (l : List Session) (acc : Option Session) (s : Session),
      l.foldl openStep acc = some s → acc = some s ∨ s ∈ l by
    rcases haux l none s h with h' | h'
    · exact absurd h' (by simp)
    · exact h'
  intro l
  induction l with
  | nil => intro acc s h'; exact Or.inl h'
  | cons x xs ih =>
    intro acc s h'
    rw [List.foldl_cons] at h'
    rcases ih (openStep acc x) s h' with h'' | h''
    · rcases openStep_cases acc x s h'' with rfl | h3
      · exact Or.inr (List.mem_cons_self _ _)
      · exact Or.inl h3
    · exact Or.inr (List.mem_cons_of_mem _ h'')

/-! ## Claim C1 -/

/-- C1: for a ping of a tracking employee — outside all active fences the
counter increments and is reported; below the threshold of 5 tracking
continues with the new counter and no session change; on reaching 5 the
handler auto-checks-out: the open session (if any) is closed, `isTracking`
becomes false, reason "outside_geofence" is recorded, and tracking stops.
Inside any active fence the counter resets to 0, no session is closed and
tracking continues.  From counter 0, pings 1–4 do not auto-checkout and the
5th does. -/
theorem ping_outside_counter (st : TrackState) (fences : List FenceEval)
    (lat lng : Int) (now : Nat) (htrack : st.emp.isTracking = true) :
    ((∀ f ∈ fences, f.isWithin = false) →
      (handlePing st fences lat lng now).1.outsideGeofenceCount =
        st.emp.outsideGeofenceCount + 1 ∧
      (st.emp.outsideGeofenceCount + 1 < 5 →
        (handlePing st fences lat lng now).1.autoCheckedOut = false ∧
        (handlePing st fences lat lng now).1.tracking = true ∧
        (handlePing st fences lat lng now).2.emp.isTracking = true ∧
        (handlePing st fences lat lng now).2.emp.outsideGeofenceCount =
          st.emp.outsideGeofenceCount + 1 ∧
        (handlePing st fences lat lng now).2.sessions = st.sessions) ∧
      (5 ≤ st.emp.outsideGeofenceCount + 1 →
        (handlePing st fences lat lng now).1.autoCheckedOut = true ∧
        (handlePing st fences lat lng now).1.tracking = false ∧
        (handlePing st fences lat lng now).2.emp.isTracking = false ∧
        (handlePing st fences lat lng now).2.emp.autoCheckoutReason =
          some "outside_geofence" ∧
        (∀ s, getOpenSession st.sessions = some s →
          (handlePing st fences lat lng now).2.sessions =
            checkOutSession st.sessions s.attendanceId now) ∧
        (∀ s, getOpenSession st.sessions = some s →
          (st.sessions.map Session.attendanceId).Nodup →
          { s with checkOutTime := some now } ∈
            (handlePing st fences lat lng now).2.sessions) ∧
        (getOpenSession st.sessions = none →
          (handlePing st fences lat lng now).2.sessions = st.sessions))) ∧
    ((∃ f ∈ fences, f.isWithin = true) →
      (handlePing st fences lat lng now).1.outsideGeofenceCount = 0 ∧
      (handlePing st fences lat lng now).1.autoCheckedOut = false ∧
      (handlePing st fences lat lng now).1.tracking = true ∧
      (handlePing st fences lat lng now).2.emp.outsideGeofenceCount = 0 ∧
      (handlePing st fences lat lng now).2.emp.isTracking = true ∧
      (handlePing st fences lat lng now).2.sessions = st.sessions) ∧
    (st.emp.outsideGeofenceCount = 0 → (∀ f ∈ fences, f.isWithin = false) →
      (∀ k, k < 4 →
        (handlePing (iteratePing fences lat lng now k st) fences lat lng
            now).1.autoCheckedOut = false) ∧
      (handlePing (iteratePing fences lat lng now 4 st) fences lat lng
          now).1.autoCheckedOut = true) := by
  refine ⟨?_, ?_, ?_⟩
  · intro hall
    have hout : (scanFences fences).1 = false := by
      rw [scanFences_fst]
      exact List.any_eq_false.mpr fun f hf => by simp [hall f hf]
    refine ⟨?_, ?_, ?_⟩
    · rcases Nat.lt_or_ge (st.emp.outsideGeofenceCount + 1) 5 with hlt | hge
      · rw [handlePing_outside_lt st fences lat lng now htrack hout hlt]
      · rw [handlePing_outside_ge st fences lat lng now htrack hout hge]
    · intro hlt
      rw [handlePing_outside_lt st fences lat lng now htrack hout hlt]
      exact ⟨rfl, rfl, htrack, rfl, rfl⟩
    · intro hge
      rw [handlePing_outside_ge st fences lat lng now htrack hout hge]
      refine ⟨rfl, rfl, rfl, rfl, ?_, ?_, ?_⟩
      · intro s hs
        dsimp only
        rw [hs]
      · intro s hs hnd
        dsimp only
        rw [hs]
        exact mem_checkOutSession_of_nodup st.sessions s now
          (getOpenSession_mem hs) hnd
      · intro hs
        dsimp only
        rw [hs]
  · rintro ⟨f, hf, hw⟩
    have hin : (scanFences fences).1 = true := by
      rw [scanFences_fst]
      exact List.any_eq_true.mpr ⟨f, hf, hw⟩
    rw [handlePing_inside st fences lat lng now htrack hin]
    exact ⟨rfl, rfl, rfl, rfl, htrack, rfl⟩
  · intro h0 hall
    have hout : (scanFences fences).1 = false := by
      rw [scanFences_fst]
      exact List.any_eq_false.mpr fun f hf => by simp [hall f hf]
    constructor
    · intro k hk
      obtain ⟨ht, hc, -⟩ := iteratePing_outside_le4 fences lat lng now hout
        st htrack h0 k (by omega)
      rw [handlePing_outside_lt (iteratePing fences lat lng now k st) fences
        lat lng now ht hout (by omega)]
    · obtain ⟨ht, hc, -⟩ := iteratePing_outside_le4 fences lat lng now hout
        st htrack h0 4 (Nat.le_refl 4)
      rw [handlePing_outside_ge (iteratePing fences lat lng now 4 st) fences
        lat lng now ht hout (by omega)]

/-- C1 witness: a single outside fence; from counter 4 the next ping
auto-checks-out and closes the open session, from counter 0 it does not;
an inside ping resets the counter. -/
theorem ping_outside_counter_witness :
    (handlePing
        { emp := { empTracking with outsideGeofenceCount := 4 },
          sessions := [{ attendanceId := 1, date := 0, checkInTime := 540,
                         checkOutTime := none }],
          pings := [] }
        [{ branchId := 1, isWithin := false, distance := 250 }] 0 0
        600).1.autoCheckedOut = true ∧
    { attendanceId := 1, date := 0, checkInTime := 540,
      checkOutTime := some 600 } ∈
      (handlePing
        { emp := { empTracking with outsideGeofenceCount := 4 },
          sessions := [{ attendanceId := 1, date := 0, checkInTime := 540,
                         checkOutTime := none }],
          pings := [] }
        [{ branchId := 1, isWithin := false, distance := 250 }] 0 0
        600).2.sessions ∧
    (handlePing
        { emp := empTracking,
          sessions := [{ attendanceId := 1, date := 0, checkInTime := 540,
                         checkOutTime := none }],
          pings := [] }
        [{ branchId := 1, isWithin := false, distance := 250 }] 0 0
        600).1.autoCheckedOut = false ∧
    (handlePing
        { emp := empTracking,
          sessions := [{ attendanceId := 1, date := 0, checkInTime := 540,
                         checkOutTime := none }],
          pings := [] }
        [{ branchId := 1, isWithin := true, distance := 20 }] 0 0
        600).2.emp.outsideGeofenceCount = 0 := by
  have h4 := ping_outside_counter
    { emp := { empTracking with outsideGeofenceCount := 4 },
      sessions := [{ attendanceId := 1, date := 0, checkInTime := 540,
                     checkOutTime := none }],
      pings := [] }
    [{ branchId := 1, isWithin := false, distance := 250 }] 0 0 600 rfl
  have h0 := ping_outside_counter
    { emp := empTracking,
      sessions := [{ attendanceId := 1, date := 0, checkInTime := 540,
                     checkOutTime := none }],
      pings := [] }
    [{ branchId := 1, isWithin := false, distance := 250 }] 0 0 600 rfl
  have hin := ping_outside_counter
    { emp := empTracking,
      sessions := [{ attendanceId := 1, date := 0, checkInTime := 540,
                     checkOutTime := none }],
      pings := [] }
    [{ branchId := 1, isWithin := true, distance := 20 }] 0 0 600 rfl
  refine ⟨((h4.1 (by decide)).2.2 (by decide)).1, ?_, ?_, ?_⟩
  · exact ((h4.1 (by decide)).2.2 (by decide)).2.2.2.2.2.1
      { attendanceId := 1, date := 0, checkInTime := 540,
        checkOutTime := none } (by decide) (by decide)
  · exact ((h0.1 (by decide)).2.1 (by decide)).1
  · exact (hin.2.1 ⟨{ branchId := 1, isWithin := true, distance := 20 },
      by decide, rfl⟩).2.2.2.1

/-! ## Claim C10 -/

/-- C10: with no active fences, a tracking employee's ping is classified
outside (inside flag false, distance Infinity, no closest branch), the
counter still increments, and five consecutive such pings force the
auto-checkout; the standalone validation endpoint instead allows all
locations when no branch and no legacy geofence is configured. -/
theorem empty_fences_default_outside (st : TrackState) (lat lng : Int)
    (now : Nat) (htrack : st.emp.isTracking = true) :
    scanFences [] = (false, none, none) ∧
    (handlePing st [] lat lng now).1.isInsideGeofence = false ∧
    (handlePing st [] lat lng now).1.distance = none ∧
    (handlePing st [] lat lng now).1.closestBranch = none ∧
    (handlePing st [] lat lng now).1.outsideGeofenceCount =
      st.emp.outsideGeofenceCount + 1 ∧
    (st.emp.outsideGeofenceCount = 0 →
      (∀ k, k < 4 →
        (handlePing (iteratePing [] lat lng now k st) [] lat lng
            now).1.autoCheckedOut = false) ∧
      (handlePing (iteratePing [] lat lng now 4 st) [] lat lng
          now).1.autoCheckedOut = true) ∧
    validateLocation [] none =
      { withinRange := true, isConfigured := false, closestBranch := none } := by
  have hout : (scanFences ([] : List FenceEval)).1 = false := rfl
  have hfields : (handlePing st [] lat lng now).1.isInsideGeofence = false ∧
      (handlePing st [] lat lng now).1.distance = none ∧
      (handlePing st [] lat lng now).1.closestBranch = none ∧
      (handlePing st [] lat lng now).1.outsideGeofenceCount =
        st.emp.outsideGeofenceCount + 1 := by
    rcases Nat.lt_or_ge (st.emp.outsideGeofenceCount + 1) 5 with hlt | hge
    · rw [handlePing_outside_lt st [] lat lng now htrack hout hlt]
      exact ⟨rfl, rfl, rfl, rfl⟩
    · rw [handlePing_outside_ge st [] lat lng now htrack hout hge]
      exact ⟨rfl, rfl, rfl, rfl⟩
  have hiter : st.emp.outsideGeofenceCount = 0 →
      (∀ k, k < 4 →
        (handlePing (iteratePing [] lat lng now k st) [] lat lng
            now).1.autoCheckedOut = false) ∧
      (handlePing (iteratePing [] lat lng now 4 st) [] lat lng
          now).1.autoCheckedOut = true := by
    intro h0
    constructor
    · intro k hk
      obtain ⟨ht, hc, -⟩ := iteratePing_outside_le4 [] lat lng now hout
        st htrack h0 k (by omega)
      rw [handlePing_outside_lt (iteratePing [] lat lng now k st) []
        lat lng now ht hout (by omega)]
    · obtain ⟨ht, hc, -⟩ := iteratePing_outside_le4 [] lat lng now hout
        st htrack h0 4 (Nat.le_refl 4)
      rw [handlePing_outside_ge (iteratePing [] lat lng now 4 st) []
        lat lng now ht hout (by omega)]
  exact ⟨rfl, hfields.1, hfields.2.1, hfields.2.2.1, hfields.2.2.2,
    hiter, rfl⟩

/-- C10 witness: a fresh tracking state with no configured fences — the first
ping reads outside with Infinity distance, and validation with nothing
configured allows the location. -/
theorem empty_fences_default_outside_witness :
    (handlePing { emp := empTracking, sessions := [], pings := [] } [] 0 0
        600).1.isInsideGeofence = false ∧
    (handlePing { emp := empTracking, sessions := [], pings := [] } [] 0 0
        600).1.distance = none ∧
    (handlePing (iteratePing [] 0 0 600 4
        { emp := empTracking, sessions := [], pings := [] }) [] 0 0
        600).1.autoCheckedOut = true ∧
    validateLocation [] none =
      { withinRange := true, isConfigured := false, closestBranch := none } := by
  have h := empty_fences_default_outside
    { emp := empTracking, sessions := [], pings := [] } 0 0 600 rfl
  exact ⟨h.2.1, h.2.2.1, (h.2.2.2.2.2.1 rfl).2, h.2.2.2.2.2.2⟩

end SRM
